import Mathlib

/-!
Shallow embedding of the transformation / drawing-state pipeline of
`edudraw.py` (class `EduDraw` and its helper `_SimulationData`).

Modelling conventions:
* Python numbers are embedded as `ℚ` for the state machine (exact rational
  arithmetic; every operation the claims exercise is `+ - * /` on exact
  values) and as `ℝ` for the coordinate pipeline, which uses `math.sin` /
  `math.cos`; the claims about that pipeline are stated over real
  arithmetic, as the specification does.
* Python attribute assignment rebinds a per-record field and is embedded as
  a functional record update.  The single place where the source mutates a
  *shared mutable object* in place is `scale`, which writes through the
  `cumulative_scaling_factor` list (`data.cumulative_scaling_factor[0] *= ...`).
  `copy.copy` in `push` shares that list between records.  We therefore embed
  that field as a cell identifier into an explicit `store` of pairs, so that
  the Python aliasing semantics is preserved exactly: `copy.copy` copies the
  cell id, in-place writes update the store, reassignment (`= [1, 1]` in the
  reset methods) allocates a fresh cell.  The `applied_transformations` list
  is also mutable in Python, but `push` explicitly copies it
  (`[i for i in previous_data.applied_transformations]`) and the resets
  reassign it, so no two live records ever share it and plain value
  semantics is faithful for it.
* `data_stack` is a Python list used only through `append`, `[-1]` and
  `pop()` at the end; we embed it with the *head* of a Lean list as the
  Python list's end (its top).
* The pygame / PIL rendering calls themselves (blitting pixels) are outside
  the embedding; drawing functions instead return the exact arguments the
  source would pass to the rasterizer (or `none` / `false` when the source
  returns without drawing).
-/

namespace EduDraw

/-- The two anchor modes of `_SimulationData.draw_mode`
(`{'TOP_LEFT': 0, 'CENTER': 1}`). -/
inductive DrawMode where
  | TOP_LEFT
  | CENTER
deriving DecidableEq, Repr

/-- A transformation operation, tagged as in
`_SimulationData.transformations` (`{'ROT': 0, 'TRA': 1, 'SCL': 2}`);
the payload is the tuple stored alongside the tag in
`applied_transformations`. -/
inductive Transformation (α : Type) where
  | ROT (angle : α)
  | TRA (dx dy : α)
  | SCL (sx sy : α)
deriving DecidableEq, Repr

/-- An (R, G, B) color tuple. -/
abbrev Color := ℕ × ℕ × ℕ

/-- The fields of `_SimulationData` the claims are about
(`current_text_font` is omitted: no claim mentions the font, and it is a
PIL object with no arithmetic content).  `cumulative_scaling_factor` is a
cell id into `EduDrawState.store`, see the header comment. -/
structure SimulationData where
  applied_transformations : List (Transformation ℚ)
  flag_has_rotation : Bool
  cumulative_rotation_angle : ℚ
  flag_has_scaling : Bool
  cumulative_scaling_factor : ℕ
  account_for_transformations : Bool
  current_rect_mode : DrawMode
  current_circle_mode : DrawMode
  current_stroke_color : Color
  current_fill_color : Color
  current_background_color : Color
  current_stroke_weight : ℚ
  fill_state : Bool
  stroke_state : Bool
deriving DecidableEq, Repr

/-- The `_SimulationData.__init__` defaults, with the scaling-factor list
allocated at cell `cell`. -/
def initData (cell : ℕ) : SimulationData where
  applied_transformations := []
  flag_has_rotation := false
  cumulative_rotation_angle := 0
  flag_has_scaling := false
  cumulative_scaling_factor := cell
  account_for_transformations := false
  current_rect_mode := DrawMode.TOP_LEFT
  current_circle_mode := DrawMode.CENTER
  current_stroke_color := (0, 0, 0)
  current_fill_color := (0, 0, 0)
  current_background_color := (125, 125, 125)
  current_stroke_weight := 1
  fill_state := true
  stroke_state := true

/-- The `EduDraw` state the claims are about: the base record `self.data`,
the temporary-state stack `self.data_stack` (head = top), and the store of
scaling-factor list objects. -/
structure EduDrawState where
  data : SimulationData
  data_stack : List SimulationData
  store : List (ℚ × ℚ)
deriving DecidableEq, Repr

/-- `EduDraw.__init__`: `self.data = _SimulationData()`,
`self.data_stack = []`; the base record's `[1, 1]` list is cell 0. -/
def initState : EduDrawState where
  data := initData 0
  data_stack := []
  store := [(1, 1)]

/-- `EduDraw._get_data_object`: the stack's top if non-empty, else the base
record. -/
def get_data_object (s : EduDrawState) : SimulationData :=
  match s.data_stack with
  | [] => s.data
  | d :: _ => d

/-- Writing back the current record: Python mutates `self.data` or
`self.data_stack[-1]` through attribute assignment; in the embedding the
mutated record replaces the one `_get_data_object` designates. -/
def set_data_object (s : EduDrawState) (d : SimulationData) : EduDrawState :=
  match s.data_stack with
  | [] => { s with data := d }
  | _ :: rest => { s with data_stack := d :: rest }

/-- Reading a record's `cumulative_scaling_factor` list from the store. -/
def readScalingFactor (s : EduDrawState) (d : SimulationData) : ℚ × ℚ :=
  s.store.getD d.cumulative_scaling_factor (1, 1)

/-- `EduDraw.rotate`: set the rotation flag, add the angle to the cached
cumulative angle, append a ROT operation. -/
def rotate (angle : ℚ) (s : EduDrawState) : EduDrawState :=
  let d := get_data_object s
  set_data_object s
    { d with
      flag_has_rotation := true
      cumulative_rotation_angle := d.cumulative_rotation_angle + angle
      applied_transformations :=
        d.applied_transformations ++ [Transformation.ROT angle] }

/-- `EduDraw.scale`: a zero factor returns immediately; otherwise set the
scaling flag, multiply the shared cumulative-scaling-factor list in place
(a store write at the record's cell), and append a SCL operation. -/
def scale (scale_x scale_y : ℚ) (s : EduDrawState) : EduDrawState :=
  if scale_x = 0 ∨ scale_y = 0 then s
  else
    let d := get_data_object s
    let cur := readScalingFactor s d
    let s' := { s with
      store := s.store.set d.cumulative_scaling_factor
        (cur.1 * scale_x, cur.2 * scale_y) }
    set_data_object s'
      { d with
        flag_has_scaling := true
        applied_transformations :=
          d.applied_transformations ++ [Transformation.SCL scale_x scale_y] }

/-- `EduDraw.translate`: append a TRA operation. -/
def translate (translate_x translate_y : ℚ) (s : EduDrawState) : EduDrawState :=
  let d := get_data_object s
  set_data_object s
    { d with
      applied_transformations :=
        d.applied_transformations ++ [Transformation.TRA translate_x translate_y] }

/-- The tag of an operation, as in the `transformations` enum dict. -/
def tfKind : Transformation ℚ → ℕ
  | Transformation.ROT _ => 0
  | Transformation.TRA _ _ => 1
  | Transformation.SCL _ _ => 2

/-- `EduDraw._remove_transformation`: filter one operation kind out of the
current record's sequence. -/
def remove_transformation (tf : ℕ) (s : EduDrawState) : EduDrawState :=
  let d := get_data_object s
  set_data_object s
    { d with
      applied_transformations :=
        d.applied_transformations.filter (fun t => tfKind t ≠ tf) }

/-- `EduDraw.reset_transformations`: empty the sequence, clear both flags
and caches; `cumulative_scaling_factor = [1, 1]` reassigns a *fresh* list,
i.e. allocates a new store cell. -/
def reset_transformations (s : EduDrawState) : EduDrawState :=
  let d := get_data_object s
  let s' := { s with store := s.store ++ [(1, 1)] }
  set_data_object s'
    { d with
      applied_transformations := []
      flag_has_rotation := false
      flag_has_scaling := false
      cumulative_rotation_angle := 0
      cumulative_scaling_factor := s.store.length }

/-- `EduDraw.reset_scaling`: drop SCL operations, reassign a fresh `[1, 1]`
list, clear the flag. -/
def reset_scaling (s : EduDrawState) : EduDrawState :=
  let s1 := remove_transformation 2 s
  let d := get_data_object s1
  let s2 := { s1 with store := s1.store ++ [(1, 1)] }
  set_data_object s2
    { d with
      cumulative_scaling_factor := s1.store.length
      flag_has_scaling := false }

/-- `EduDraw.reset_translation`: drop TRA operations. -/
def reset_translation (s : EduDrawState) : EduDrawState :=
  remove_transformation 1 s

/-- `EduDraw.reset_rotation`: drop ROT operations, clear flag and cached
angle. -/
def reset_rotation (s : EduDrawState) : EduDrawState :=
  let s1 := remove_transformation 0 s
  let d := get_data_object s1
  set_data_object s1
    { d with
      flag_has_rotation := false
      cumulative_rotation_angle := 0 }

/-- `EduDraw.push`: `copy.copy` of the current record (sharing the
`cumulative_scaling_factor` list object, i.e. the cell id), with only the
`applied_transformations` list explicitly re-copied; the copy is appended
to the stack. -/
def push (s : EduDrawState) : EduDrawState :=
  let d := get_data_object s
  { s with data_stack := d :: s.data_stack }

/-- `EduDraw.pop`: remove the stack's top if the stack is non-empty,
otherwise do nothing. -/
def pop (s : EduDrawState) : EduDrawState :=
  match s.data_stack with
  | [] => s
  | _ :: rest => { s with data_stack := rest }

/-- `EduDraw.fill`: enable filling and set the fill color. -/
def fill (color : Color) (s : EduDrawState) : EduDrawState :=
  let d := get_data_object s
  set_data_object s { d with fill_state := true, current_fill_color := color }

/-- `EduDraw.no_fill`. -/
def no_fill (s : EduDrawState) : EduDrawState :=
  let d := get_data_object s
  set_data_object s { d with fill_state := false }

/-- `EduDraw.stroke`. -/
def stroke (color : Color) (s : EduDrawState) : EduDrawState :=
  let d := get_data_object s
  set_data_object s { d with stroke_state := true, current_stroke_color := color }

/-- `EduDraw.no_stroke`. -/
def no_stroke (s : EduDrawState) : EduDrawState :=
  let d := get_data_object s
  set_data_object s { d with stroke_state := false }

/-- `EduDraw.stroke_weight`. -/
def stroke_weight (new_weight : ℚ) (s : EduDrawState) : EduDrawState :=
  let d := get_data_object s
  set_data_object s { d with current_stroke_weight := new_weight }

/-- `EduDraw.rect_mode` (the string key already resolved through the
`draw_mode` dict). -/
def rect_mode (mode : DrawMode) (s : EduDrawState) : EduDrawState :=
  let d := get_data_object s
  set_data_object s { d with current_rect_mode := mode }

/-- `EduDraw.circle_mode`. -/
def circle_mode (mode : DrawMode) (s : EduDrawState) : EduDrawState :=
  let d := get_data_object s
  set_data_object s { d with current_circle_mode := mode }

/-- `EduDraw._get_rect_box`: anchor resolution for rectangle-class
geometry, keyed off the record's `current_rect_mode`. -/
def get_rect_box (d : SimulationData) (x y w h : ℚ) (inverted : Bool := false) :
    ℚ × ℚ :=
  if d.current_rect_mode = DrawMode.TOP_LEFT then
    if inverted then (x + w / 2, y + h / 2) else (x, y)
  else
    if inverted then (x, y) else (x - w / 2, y - h / 2)

/-- `EduDraw._get_circle_box`: anchor resolution for circle-class geometry,
keyed off the record's `current_circle_mode`. -/
def get_circle_box (d : SimulationData) (x y w h : ℚ) (inverted : Bool := false) :
    ℚ × ℚ :=
  if d.current_circle_mode = DrawMode.TOP_LEFT then
    if inverted then (x + w / 2, y + h / 2) else (x, y)
  else
    if inverted then (x, y) else (x - w / 2, y - h / 2)

/-- `EduDraw._apply_transformations_length`: only SCL operations touch
lengths; each multiplies the running pair by its per-axis factors. -/
def apply_transformations_length (ops : List (Transformation ℚ)) (width height : ℚ) :
    ℚ × ℚ :=
  ops.foldl
    (fun p t =>
      match t with
      | Transformation.SCL sx sy => (p.1 * sx, p.2 * sy)
      | _ => p)
    (width, height)

/-- `math.radians`: degrees to radians. -/
noncomputable def radians (a : ℝ) : ℝ := a * Real.pi / 180

/-- One iteration of the loop in `EduDraw._apply_transformations_coords`:
SCL multiplies per axis, TRA adds, ROT rotates the running point by its
angle (skipped when `no_rotation` is set). -/
noncomputable def applyStep (no_rotation : Bool) (p : ℝ × ℝ) :
    Transformation ℝ → ℝ × ℝ
  | Transformation.SCL sx sy => (p.1 * sx, p.2 * sy)
  | Transformation.TRA dx dy => (p.1 + dx, p.2 + dy)
  | Transformation.ROT a =>
    if no_rotation then p
    else
      (p.1 * Real.cos (radians a) - p.2 * Real.sin (radians a),
       p.1 * Real.sin (radians a) + p.2 * Real.cos (radians a))

/-- `EduDraw._apply_transformations_coords`: replay the operations in
insertion order, each acting on the running coordinate. -/
noncomputable def apply_transformations_coords (ops : List (Transformation ℝ))
    (x y : ℝ) (no_rotation : Bool := false) : ℝ × ℝ :=
  ops.foldl (applyStep no_rotation) (x, y)

/-- One iteration of the loop in `EduDraw._undo_transformations_coords`:
SCL divides per axis, TRA subtracts, ROT rotates the running point by the
transposed (inverse) matrix. -/
noncomputable def undoStep (p : ℝ × ℝ) : Transformation ℝ → ℝ × ℝ
  | Transformation.SCL sx sy => (p.1 / sx, p.2 / sy)
  | Transformation.TRA dx dy => (p.1 - dx, p.2 - dy)
  | Transformation.ROT a =>
    (p.1 * Real.cos (radians a) + p.2 * Real.sin (radians a),
     -p.1 * Real.sin (radians a) + p.2 * Real.cos (radians a))

/-- `EduDraw._undo_transformations_coords`: replay the operations in
reversed order, inverting each. -/
noncomputable def undo_transformations_coords (ops : List (Transformation ℝ))
    (x y : ℝ) : ℝ × ℝ :=
  ops.reverse.foldl undoStep (x, y)

/-- Embedding of the rational operations stored in the state into the real
coordinate pipeline. -/
noncomputable def castOp : Transformation ℚ → Transformation ℝ
  | Transformation.ROT a => Transformation.ROT (a : ℝ)
  | Transformation.TRA dx dy => Transformation.TRA (dx : ℝ) (dy : ℝ)
  | Transformation.SCL sx sy => Transformation.SCL (sx : ℝ) (sy : ℝ)

/-- `EduDraw.point`: nothing if stroke is disabled; otherwise the rasterizer
receives the fully transformed coordinate and the current stroke color.
The state is not modified by `point`, so only the draw call is returned. -/
noncomputable def point (s : EduDrawState) (x y : ℝ) : Option ((ℝ × ℝ) × Color) :=
  let d := get_data_object s
  if d.stroke_state = false then none
  else
    some
      (apply_transformations_coords (d.applied_transformations.map castOp) x y false,
       d.current_stroke_color)

/-- `EduDraw.image` restricted to what the claims observe: the state it
leaves behind and whether a paste onto the frame happens.  `corners` is the
optional `(x2, y2)` pair; `img_w, img_h` is `img.size`.  Faithful control
flow: the rect mode is forced to TOP_LEFT *before* the zero-size check when
corners are given, the zero-size check returns early, and only the full
path restores `temp_draw_mode`.  The mirror / flip / resize / rotate / box
arithmetic below the zero check only shapes the pasted pixels and is
abstracted into the returned flag. -/
def image (s : EduDrawState) (img_w img_h x y : ℚ) (corners : Option (ℚ × ℚ)) :
    EduDrawState × Bool :=
  let d := get_data_object s
  let temp_draw_mode := d.current_rect_mode
  let step :
      EduDrawState × ℚ × ℚ :=
    match corners with
    | none =>
      (s, apply_transformations_length d.applied_transformations img_w img_h)
    | some (x2, y2) =>
      let s' := set_data_object s { d with current_rect_mode := DrawMode.TOP_LEFT }
      (s', apply_transformations_length d.applied_transformations (x2 - x) (y2 - y))
  let s1 := step.1
  let target_width := step.2.1
  let target_height := step.2.2
  if target_width = 0 ∨ target_height = 0 then (s1, false)
  else
    let d1 := get_data_object s1
    (set_data_object s1 { d1 with current_rect_mode := temp_draw_mode }, true)

/-- `EduDraw.image_sized` restricted in the same way: it never writes the
record (it only reads), and it returns before pasting when the transformed
target width or height is zero. -/
def image_sized (s : EduDrawState) (img_w img_h x y : ℚ)
    (width height : Option ℚ) : EduDrawState × Bool :=
  let d := get_data_object s
  let w := width.getD img_w
  let h := height.getD img_h
  let target := apply_transformations_length d.applied_transformations w h
  if target.1 = 0 ∨ target.2 = 0 then (s, false) else (s, true)

/-! ## Helper lemmas -/

lemma get_set_data_object (s : EduDrawState) (d : SimulationData) :
    get_data_object (set_data_object s d) = d := by
  rcases s with ⟨b, stack, st⟩
  cases stack <;> rfl

/-! ## Claims -/

/-- C6: `scale(sx, sy)` with `sx = 0` or `sy = 0` is silently dropped: the
whole state — operation sequence, cumulative scale factor store, flags —
is unchanged and nothing is raised. -/
theorem scale_zero_noop (s : EduDrawState) (sx sy : ℚ) (h : sx = 0 ∨ sy = 0) :
    scale sx sy s = s := by
  unfold scale
  rw [if_pos h]

/-- Witness for C6: `scale(0, 5)` leaves the initial state (in particular
its operation count) untouched. -/
theorem scale_zero_noop_witness : scale 0 5 initState = initState :=
  scale_zero_noop initState 0 5 (Or.inl rfl)

/-- C9: `pop()` on an empty state stack is a no-op; on a non-empty stack it
removes exactly the top element, leaves the base record and the store
alone, and the current record reverts to the new top (or the base record
when the stack empties). -/
theorem pop_spec (s : EduDrawState) :
    (s.data_stack = [] → pop s = s) ∧
    (s.data_stack ≠ [] →
      pop s = { s with data_stack := s.data_stack.tail } ∧
      get_data_object (pop s) = s.data_stack.tail.headD s.data) := by
  rcases s with ⟨b, stack, st⟩
  cases stack with
  | nil => simp [pop]
  | cons d rest =>
    refine ⟨fun hc => absurd hc (by simp), fun _ => ⟨rfl, ?_⟩⟩
    cases rest <;> rfl

/-- Witness for C9: popping the initial (empty-stack) state changes
nothing, and popping right after a push removes exactly the pushed copy. -/
theorem pop_spec_witness :
    pop initState = initState ∧
    pop (push initState) = initState ∧
    get_data_object (pop (push initState)) = initState.data := by
  refine ⟨(pop_spec initState).1 rfl, ?_, ?_⟩
  · have h := ((pop_spec (push initState)).2 (by decide)).1
    rw [h]; rfl
  · have h := ((pop_spec (push initState)).2 (by decide)).2
    rw [h]; rfl

/-- C7: with anchor mode CENTER and `inverted = false` the resolvers return
`(x - w/2, y - h/2)`; resolving that result with mode TOP_LEFT and
`inverted = true` returns the original `(x, y)`; identically for the
rectangle-class and circle-class resolvers, each keyed off its own mode. -/
theorem anchor_roundtrip (x y w h : ℚ) (d e : SimulationData)
    (hd : d.current_rect_mode = DrawMode.CENTER)
    (he : e.current_rect_mode = DrawMode.TOP_LEFT)
    (hdc : d.current_circle_mode = DrawMode.CENTER)
    (hec : e.current_circle_mode = DrawMode.TOP_LEFT) :
    get_rect_box d x y w h false = (x - w / 2, y - h / 2) ∧
    get_rect_box e (x - w / 2) (y - h / 2) w h true = (x, y) ∧
    get_circle_box d x y w h false = (x - w / 2, y - h / 2) ∧
    get_circle_box e (x - w / 2) (y - h / 2) w h true = (x, y) := by
  unfold get_rect_box get_circle_box
  rw [hd, he, hdc, hec]
  simp only [reduceCtorEq, if_false, Bool.false_eq_true, if_true, Prod.mk.injEq]
  exact ⟨trivial, ⟨by ring, by ring⟩, trivial, by ring, by ring⟩

/-- Witness for C7: the round trip at `(x, y, w, h) = (3, 4, 2, 6)`, with a
record in CENTER mode for both families and one in TOP_LEFT mode for
both. -/
theorem anchor_roundtrip_witness :
    get_rect_box
        { initData 0 with
          current_rect_mode := DrawMode.CENTER
          current_circle_mode := DrawMode.CENTER } 3 4 2 6 false = (2, 1) ∧
    get_rect_box
        { initData 0 with
          current_rect_mode := DrawMode.TOP_LEFT
          current_circle_mode := DrawMode.TOP_LEFT } 2 1 2 6 true = (3, 4) := by
  have h := anchor_roundtrip 3 4 2 6
    { initData 0 with
      current_rect_mode := DrawMode.CENTER
      current_circle_mode := DrawMode.CENTER }
    { initData 0 with
      current_rect_mode := DrawMode.TOP_LEFT
      current_circle_mode := DrawMode.TOP_LEFT }
    rfl rfl rfl rfl
  have h1 := h.1
  have h2 := h.2.1
  norm_num at h1 h2
  exact ⟨h1, h2⟩

/-- C2 (failing evaluation): `push()` does *not* yield a fully independent
duplicate.  `copy.copy` shares the `cumulative_scaling_factor` list, and
`scale()` multiplies that list in place, so a `scale(2, 2)` between
`push()` and `pop()` leaks into the base record: after the pop the base
record's cached cumulative scale factor reads `(2, 2)`, not the pre-push
snapshot `(1, 1)`. -/
theorem push_scale_aliasing :
    readScalingFactor (pop (scale 2 2 (push initState)))
        (get_data_object (pop (scale 2 2 (push initState)))) = (2, 2) ∧
    readScalingFactor initState (get_data_object initState) = (1, 1) := by
  norm_num [push, scale, pop, get_data_object, set_data_object,
    readScalingFactor, initState, initData]

/-- C3 (failing evaluation): the cache consistency invariant is violated on
a reachable state.  After `push(); scale(2, 2); pop()` the current (base)
record's operation sequence is empty — the Scale operation went to the
popped copy — yet its cached cumulative scale factor reads `(2, 2)` through
the aliased list, not the product `(1, 1)` of the (absent) Scale
operations. -/
theorem cache_invariant_violation :
    (get_data_object (pop (scale 2 2 (push initState)))).applied_transformations
        = [] ∧
    readScalingFactor (pop (scale 2 2 (push initState)))
        (get_data_object (pop (scale 2 2 (push initState)))) ≠ (1, 1) := by
  norm_num [push, scale, pop, get_data_object, set_data_object,
    readScalingFactor, initState, initData]

/-- C5 (failing evaluation): a zero-size `image()` call is *not* a clean
no-op on the state.  With rect mode CENTER and explicit corners whose
transformed width is zero (`x2 = x`), `image()` forces the current rect
mode to TOP_LEFT before the zero-size early return and never restores it;
`image_sized()` with a zero dimension, by contrast, changes nothing and
pastes nothing. -/
theorem image_zero_size :
    (image (rect_mode DrawMode.CENTER initState) 5 5 0 0 (some (0, 5))).2
        = false ∧
    (get_data_object
        (image (rect_mode DrawMode.CENTER initState) 5 5 0 0
          (some (0, 5))).1).current_rect_mode = DrawMode.TOP_LEFT ∧
    (get_data_object (rect_mode DrawMode.CENTER initState)).current_rect_mode
        = DrawMode.CENTER ∧
    image_sized (rect_mode DrawMode.CENTER initState) 5 5 0 0 (some 0) (some 5)
        = (rect_mode DrawMode.CENTER initState, false) := by
  norm_num [image, image_sized, rect_mode, apply_transformations_length,
    get_data_object, set_data_object, initState, initData]

/-- The x-axis factor an operation contributes to a length (1 for TRA and
ROT, which leave lengths alone). -/
def sclFactorX : Transformation ℚ → ℚ
  | Transformation.SCL sx _ => sx
  | _ => 1

/-- The y-axis factor an operation contributes to a length. -/
def sclFactorY : Transformation ℚ → ℚ
  | Transformation.SCL _ sy => sy
  | _ => 1

lemma apply_transformations_length_foldl (ops : List (Transformation ℚ))
    (p : ℚ × ℚ) :
    ops.foldl
        (fun p t =>
          match t with
          | Transformation.SCL sx sy => (p.1 * sx, p.2 * sy)
          | _ => p)
        p
      = (p.1 * (ops.map sclFactorX).prod, p.2 * (ops.map sclFactorY).prod) := by
  induction ops generalizing p with
  | nil => simp
  | cons t rest ih =>
    rw [List.foldl_cons, ih]
    cases t <;> simp [sclFactorX, sclFactorY] <;> constructor <;> ring

/-- C8: the length transform multiplies each axis by the product of all
Scale factors for that axis; Translate and Rotate operations never change
the result; consequently the result is invariant under permutations of the
operation list (in particular reordering Scale-only sequences), and
`[Scale(2,3), Scale(4,1)]` sends length `(10, 10)` to `(80, 30)` in either
order. -/
theorem length_scale_only (ops ops₁ ops₂ : List (Transformation ℚ))
    (w h t₁ t₂ a : ℚ) (hperm : ops₁.Perm ops₂) :
    apply_transformations_length ops w h
        = (w * (ops.map sclFactorX).prod, h * (ops.map sclFactorY).prod) ∧
    apply_transformations_length (ops ++ [Transformation.TRA t₁ t₂]) w h
        = apply_transformations_length ops w h ∧
    apply_transformations_length (ops ++ [Transformation.ROT a]) w h
        = apply_transformations_length ops w h ∧
    apply_transformations_length ops₁ w h = apply_transformations_length ops₂ w h ∧
    apply_transformations_length [Transformation.SCL 2 3, Transformation.SCL 4 1]
        10 10 = (80, 30) ∧
    apply_transformations_length [Transformation.SCL 4 1, Transformation.SCL 2 3]
        10 10 = (80, 30) := by
  refine ⟨apply_transformations_length_foldl ops (w, h), ?_, ?_, ?_,
    by norm_num [apply_transformations_length],
    by norm_num [apply_transformations_length]⟩
  · unfold apply_transformations_length
    rw [apply_transformations_length_foldl, apply_transformations_length_foldl]
    simp [sclFactorX, sclFactorY]
  · unfold apply_transformations_length
    rw [apply_transformations_length_foldl, apply_transformations_length_foldl]
    simp [sclFactorX, sclFactorY]
  · unfold apply_transformations_length
    rw [apply_transformations_length_foldl, apply_transformations_length_foldl]
    rw [(hperm.map sclFactorX).prod_eq, (hperm.map sclFactorY).prod_eq]

/-- Witness for C8: evaluated at the reordered Scale-only pair from the
claim. -/
theorem length_scale_only_witness :
    apply_transformations_length [Transformation.SCL 2 3, Transformation.SCL 4 1]
        10 10
      = apply_transformations_length
          [Transformation.SCL 4 1, Transformation.SCL 2 3] 10 10 :=
  (length_scale_only []
    [Transformation.SCL 2 3, Transformation.SCL 4 1]
    [Transformation.SCL 4 1, Transformation.SCL 2 3]
    10 10 0 0 0 (by decide)).2.2.2.1

/-- An operation is invertible unless it is a Scale with a zero factor
(which `scale` refuses to record in the first place). -/
def sclInvertible : Transformation ℝ → Prop
  | Transformation.SCL sx sy => sx ≠ 0 ∧ sy ≠ 0
  | _ => True

lemma undoStep_applyStep (p : ℝ × ℝ) (t : Transformation ℝ)
    (h : sclInvertible t) : undoStep (applyStep false p t) t = p := by
  cases t with
  | ROT a =>
    have hsc := Real.sin_sq_add_cos_sq (radians a)
    simp only [applyStep, undoStep, Bool.false_eq_true, if_false]
    apply Prod.ext <;> dsimp only
    · linear_combination p.1 * hsc
    · linear_combination p.2 * hsc
  | TRA dx dy => simp [applyStep, undoStep]
  | SCL sx sy =>
    obtain ⟨hx, hy⟩ := h
    simp only [applyStep, undoStep]
    apply Prod.ext <;> dsimp only
    · field_simp
    · field_simp

lemma undo_foldl_apply_foldl (ops : List (Transformation ℝ)) (p : ℝ × ℝ)
    (h : ∀ t ∈ ops, sclInvertible t) :
    ops.reverse.foldl undoStep (ops.foldl (applyStep false) p) = p := by
  induction ops generalizing p with
  | nil => rfl
  | cons t rest ih =>
    rw [List.foldl_cons, List.reverse_cons, List.foldl_append]
    rw [ih (applyStep false p t) fun u hu => h u (List.mem_cons_of_mem t hu)]
    simpa using undoStep_applyStep p t (h t (List.mem_cons_self t rest))

/-- C1: for every operation sequence whose Scale factors are all non-zero
and every point, `_undo_transformations_coords` applied to the result of
`_apply_transformations_coords` (rotation not skipped) returns the original
point, exactly, over real arithmetic. -/
theorem apply_undo_roundtrip (ops : List (Transformation ℝ)) (x y : ℝ)
    (h : ∀ t ∈ ops, sclInvertible t) :
    undo_transformations_coords ops
        (apply_transformations_coords ops x y false).1
        (apply_transformations_coords ops x y false).2 = (x, y) := by
  unfold undo_transformations_coords apply_transformations_coords
  rw [Prod.mk.eta]
  exact undo_foldl_apply_foldl ops (x, y) h

/-- Witness for C1: the round trip at the point `(3, 4)` through a
translate, a non-degenerate scale and a rotation. -/
theorem apply_undo_roundtrip_witness :
    undo_transformations_coords
        [Transformation.TRA 1 2, Transformation.SCL 2 3, Transformation.ROT 90]
        (apply_transformations_coords
          [Transformation.TRA 1 2, Transformation.SCL 2 3, Transformation.ROT 90]
          3 4 false).1
        (apply_transformations_coords
          [Transformation.TRA 1 2, Transformation.SCL 2 3, Transformation.ROT 90]
          3 4 false).2 = (3, 4) := by
  refine apply_undo_roundtrip _ 3 4 ?_
  intro t ht
  simp only [List.mem_cons, List.mem_singleton, List.not_mem_nil, or_false] at ht
  rcases ht with rfl | rfl | rfl
  · trivial
  · exact ⟨by norm_num, by norm_num⟩
  · trivial

/-- C4: the forward transform replays operations in insertion order on the
running coordinate: `[Translate(10,0), Rotate(90)]` maps `(0,0)` to
`(0, 10)` (clockwise under the pixel-down convention), while
`[Rotate(90), Translate(10,0)]` maps `(0,0)` to `(10, 0)`, and the two
results differ. -/
theorem rotation_translation_order :
    apply_transformations_coords
        [Transformation.TRA 10 0, Transformation.ROT 90] 0 0 false = (0, 10) ∧
    apply_transformations_coords
        [Transformation.ROT 90, Transformation.TRA 10 0] 0 0 false = (10, 0) ∧
    ((0 : ℝ), (10 : ℝ)) ≠ ((10 : ℝ), (0 : ℝ)) := by
  have h90 : radians 90 = Real.pi / 2 := by unfold radians; ring
  refine ⟨?_, ?_, by norm_num⟩ <;>
    simp [apply_transformations_coords, applyStep, h90, Real.cos_pi_div_two,
      Real.sin_pi_div_two]

/-- C10: `point(x, y)` renders nothing when stroke is disabled; when stroke
is enabled it renders exactly one point, at the fully transformed
coordinate, in the current stroke color; and the fill color, fill flag and
stroke weight never affect its output. -/
theorem point_spec (s : EduDrawState) (x y : ℝ) :
    ((get_data_object s).stroke_state = false → point s x y = none) ∧
    ((get_data_object s).stroke_state = true →
      point s x y =
        some
          (apply_transformations_coords
            ((get_data_object s).applied_transformations.map castOp) x y false,
           (get_data_object s).current_stroke_color)) ∧
    (∀ c, point (fill c s) x y = point s x y) ∧
    point (no_fill s) x y = point s x y ∧
    (∀ w, point (stroke_weight w s) x y = point s x y) := by
  refine ⟨fun h => ?_, fun h => ?_, fun c => ?_, ?_, fun w => ?_⟩ <;>
    simp [point, fill, no_fill, stroke_weight, get_set_data_object, *]

/-- Witness for C10: in the initial state (stroke enabled, empty operation
list, black stroke) a point lands untransformed, and disabling fill does
not change the output. -/
theorem point_spec_witness :
    point initState 1 2 = some ((1, 2), (0, 0, 0)) ∧
    point (no_fill initState) 1 2 = point initState 1 2 := by
  constructor
  · rw [(point_spec initState 1 2).2.1 rfl]
    simp [apply_transformations_coords, get_data_object, initState, initData]
  · exact (point_spec initState 1 2).2.2.2.1

end EduDraw
